import Mathlib

/-!
Shallow embedding of the Flask blog application (`app.py`): configuration
defaulting, the session auth gate, and the route handlers for index
pagination, search, login, contact, dashboard, edit, delete and upload.
Pure Lean functions model the Python handlers; the database is a list of
rows, the session is an `Option String`, and HTTP responses are an
inductive type.
-/

namespace Blog

/-- Python whitespace characters stripped by `str.strip()`. -/
def pyWs (c : Char) : Bool :=
  c == ' ' || c == '\t' || c == '\n' || c == '\r' || c == '\x0b' || c == '\x0c'

/-- Model of Python `str.strip()`: drop leading and trailing whitespace. -/
def stripStr (s : String) : String :=
  String.mk (((s.data.dropWhile pyWs).reverse.dropWhile pyWs).reverse)

/-- ASCII lower-casing of one character, as done by `str.lower()` /
SQL `ILIKE` on ASCII data. -/
def lowCh (c : Char) : Char :=
  if 65 ≤ c.toNat && c.toNat ≤ 90 then Char.ofNat (c.toNat + 32) else c

/-- Lower-case a character list. -/
def lowerL (l : List Char) : List Char := l.map lowCh

/-- The characters after the final dot: Python `filename.rsplit(".", 1)[1]`
when a dot is present. -/
def afterLastDot (l : List Char) : List Char :=
  (l.reverse.takeWhile (fun c => c != '.')).reverse

/-- `allowed_file` from `app.py`: a dot occurs in the name and the
lower-cased extension after the final dot is in the allow-list. -/
def allowed_file (filename : String) : Bool :=
  filename.data.contains '.' &&
    (["png", "jpg", "jpeg", "gif", "webp"].contains
      (String.mk (lowerL (afterLastDot filename.data))))

/-- Model of Python `int(...)` coercion of a route parameter used as a
primary key: all-digit nonempty strings parse, anything else does not. -/
def digitCh (c : Char) : Bool := 48 ≤ c.toNat && c.toNat ≤ 57

/-- Parse a decimal natural number from a string, or fail. -/
def parseNat (s : String) : Option Nat :=
  if s.data ≠ [] ∧ s.data.all digitCh then
    some (s.data.foldl (fun a c => a * 10 + (c.toNat - 48)) 0)
  else none

/-- A row of the `Posts` table. -/
structure Post where
  sr_no : Nat
  title : String
  slug : String
  content : String
  tagline : String
  date : Nat
  img_file : String
deriving DecidableEq

/-- A row of the `Contact` table. -/
structure ContactMsg where
  name : String
  email : String
  phone_no : String
  msg : String
  date : Nat
deriving DecidableEq

/-- Insert a post into a list sorted by descending date. -/
def insertDesc (p : Post) : List Post → List Post
  | [] => [p]
  | q :: t => if q.date ≤ p.date then p :: q :: t else q :: insertDesc p t

/-- `order_by(Posts.date.desc())`: sort rows by descending date. -/
def sortDesc (l : List Post) : List Post := l.foldr insertDesc []

/-- `is_admin_logged_in` from `app.py`: the session value under key
`user` equals the configured admin username. -/
def is_admin_logged_in (sess : Option String) (adminUser : String) : Bool :=
  sess == some adminUser

/-- HTTP methods accepted by the routes under study. -/
inductive HttpMethod where
  | get
  | post
deriving DecidableEq

/-- The response of a route handler. -/
inductive Resp where
  | redirect (target : String)
  | render (tmpl : String)
  | notFound
  | htmlForm
deriving DecidableEq

/-- A flashed message: text and category. -/
abbrev Flash := String × String

/-- Observable outcome of an admin route: response, posts table,
upload directory contents, flashed messages. -/
structure Out where
  resp : Resp
  posts : List Post
  uploads : List String
  flashes : List Flash
deriving DecidableEq

/-- Does `f` hold of some suffix of the list (including the list itself
and the empty suffix)? -/
def anySuffix (f : List Char → Bool) : List Char → Bool
  | [] => f []
  | c :: t => f (c :: t) || anySuffix f t

/-- SQL `LIKE` pattern matching: `%` matches any sequence, `_` any
single character, all other pattern characters match literally. -/
def likeM : List Char → List Char → Bool
  | [], s => s.isEmpty
  | a :: ps, s =>
    if a == '%' then anySuffix (likeM ps) s
    else if a == '_' then
      match s with
      | [] => false
      | _ :: t => likeM ps t
    else
      match s with
      | [] => false
      | c :: t => a == c && likeM ps t

/-- Does the needle occur literally at the head of the haystack? -/
def startsW : List Char → List Char → Bool
  | [], _ => true
  | _ :: _, [] => false
  | a :: ns, c :: hs => a == c && startsW ns hs

/-- Does the needle occur literally anywhere in the haystack? -/
def substrOcc (needle hay : List Char) : Bool := anySuffix (startsW needle) hay

/-- Modelled from the spec: `q is a case-insensitive substring of the
field`, the matching notion the specification ascribes to search. -/
def substrCI (needle hay : String) : Bool :=
  substrOcc (lowerL needle.data) (lowerL hay.data)

/-- The pattern contains no SQL `LIKE` metacharacter. -/
def noWild (q : List Char) : Bool := q.all (fun c => !(c == '%') && !(c == '_'))

/-- `Posts.<field>.ilike(f"%q%")`: case-insensitive LIKE with the query
wrapped in `%` wildcards. -/
def ilikeB (q field : String) : Bool :=
  likeM ('%' :: (lowerL q.data ++ ['%'])) (lowerL field.data)

/-- The filter of the `/search` route: the pattern matches the title,
the tagline, or the content. -/
def postMatches (q : String) (p : Post) : Bool :=
  ilikeB q p.title || ilikeB q p.tagline || ilikeB q p.content

/-- Outcome of `/search`: result rows and whether the store was queried. -/
structure SearchOut where
  results : List Post
  queriedStore : Bool
deriving DecidableEq

/-- The `/search` route from `app.py`: strip the query; an empty query
yields no results without querying; otherwise filter by the three-field
ILIKE disjunction and order by descending date. -/
def searchR (posts : List Post) (qRaw : String) : SearchOut :=
  let q := stripStr qRaw
  if q == "" then ⟨[], false⟩
  else ⟨sortDesc (posts.filter (postMatches q)), true⟩

/-- Outcome of the index route. -/
structure IndexResult where
  posts : List Post
  page : Int
  lastPage : Nat
  prev : Option Int
  next : Option Int
deriving DecidableEq

/-- The `/` route from `app.py`: `last_page = max(1, ceil(total/per_page))`,
clamp the requested page into `[1, last_page]`, slice the date-descending
posts at offset `(page-1)*per_page`, length `per_page`. -/
def indexRoute (db : List Post) (pageReq : Int) (perPage : Nat) : IndexResult :=
  let total := db.length
  let lastPage := max 1 ((total + perPage - 1) / perPage)
  let page : Int := min (max 1 pageReq) (lastPage : Int)
  { posts := ((sortDesc db).drop ((page - 1).toNat * perPage)).take perPage
    page := page
    lastPage := lastPage
    prev := if 1 < page then some (page - 1) else none
    next := if page < (lastPage : Int) then some (page + 1) else none }

/-- The `/dashboard` route: gate, then render. -/
def dashboardR (sess : Option String) (adminU : String) (posts : List Post)
    (uploads : List String) : Out :=
  if is_admin_logged_in sess adminU then ⟨.render "dashboard.html", posts, uploads, []⟩
  else ⟨.redirect "login", posts, uploads, []⟩

/-- The fields of the edit form. -/
structure EditForm where
  title : String
  slug : String
  content : String
  tagline : String
  img_file : String
deriving DecidableEq

/-- The row inserted by `/edit/0`: stripped form fields, store-generated
key, current time as date. -/
def newPostOf (form : EditForm) (freshId now : Nat) : Post :=
  { sr_no := freshId, title := stripStr form.title, slug := stripStr form.slug,
    content := stripStr form.content, tagline := stripStr form.tagline,
    date := now, img_file := stripStr form.img_file }

/-- The in-place field overwrite performed by `/edit/<id>` on the located
row: all form fields stripped; key and date untouched. -/
def updOf (form : EditForm) (q : Post) : Post :=
  { q with
    title := stripStr form.title
    slug := stripStr form.slug
    content := stripStr form.content
    tagline := stripStr form.tagline
    img_file := stripStr form.img_file }

/-- Overwrite the first row with the given key. -/
def updateFirst (n : Nat) (f : Post → Post) : List Post → List Post
  | [] => []
  | q :: t => if q.sr_no == n then f q :: t else q :: updateFirst n f t

/-- Remove the first row with the given key. -/
def removeFirst (n : Nat) : List Post → List Post
  | [] => []
  | q :: t => if q.sr_no == n then t else q :: removeFirst n t

/-- The `/edit/<sr_no>` route from `app.py`: gate; sentinel `"0"` means
create; otherwise `get_or_404` the row; on POST insert or overwrite and
redirect to the dashboard with a success flash. -/
def editR (sess : Option String) (adminU : String) (m : HttpMethod) (sr_no : String)
    (form : EditForm) (freshId now : Nat) (posts : List Post)
    (uploads : List String) : Out :=
  if is_admin_logged_in sess adminU then
    if sr_no == "0" then
      match m with
      | .get => ⟨.render "edit.html", posts, uploads, []⟩
      | .post => ⟨.redirect "dashboard", posts ++ [newPostOf form freshId now], uploads,
                  [("Post saved successfully!", "success")]⟩
    else
      match parseNat sr_no with
      | none => ⟨.notFound, posts, uploads, []⟩
      | some n =>
        match posts.find? (fun q => q.sr_no == n) with
        | none => ⟨.notFound, posts, uploads, []⟩
        | some _ =>
          match m with
          | .get => ⟨.render "edit.html", posts, uploads, []⟩
          | .post => ⟨.redirect "dashboard", updateFirst n (updOf form) posts, uploads,
                      [("Post saved successfully!", "success")]⟩
  else ⟨.redirect "login", posts, uploads, []⟩

/-- The `/delete/<sr_no>` route from `app.py`: gate; `get_or_404` the
row; delete it and redirect to the dashboard with a flash. -/
def deleteR (sess : Option String) (adminU : String) (sr_no : Nat) (posts : List Post)
    (uploads : List String) : Out :=
  if is_admin_logged_in sess adminU then
    match posts.find? (fun q => q.sr_no == sr_no) with
    | none => ⟨.notFound, posts, uploads, []⟩
    | some _ => ⟨.redirect "dashboard", removeFirst sr_no posts, uploads,
                 [("Post deleted successfully!", "info")]⟩
  else ⟨.redirect "login", posts, uploads, []⟩

/-- The `/upload` route from `app.py`: gate; on POST reject a missing or
empty filename, reject a disallowed extension, otherwise save the
sanitized name into the upload folder and redirect to the dashboard. -/
def uploadR (sess : Option String) (adminU : String) (m : HttpMethod)
    (file : Option String) (sanitize : String → String) (posts : List Post)
    (uploads : List String) : Out :=
  if is_admin_logged_in sess adminU then
    match m with
    | .get => ⟨.htmlForm, posts, uploads, []⟩
    | .post =>
      match file with
      | none => ⟨.redirect "upload", posts, uploads, [("No file selected.", "error")]⟩
      | some f =>
        if f == "" then ⟨.redirect "upload", posts, uploads, [("No file selected.", "error")]⟩
        else if allowed_file f then
          ⟨.redirect "dashboard", posts, uploads ++ [sanitize f],
           [("Uploaded successfully.", "success")]⟩
        else ⟨.redirect "upload", posts, uploads, [("Invalid file type.", "error")]⟩
  else ⟨.redirect "login", posts, uploads, []⟩

/-- Outcome of `/login`: new session, response, flashes. -/
structure LoginOut where
  sess : Option String
  resp : Resp
  flashes : List Flash
deriving DecidableEq

/-- The `/login` route from `app.py`: on POST with exactly matching
credentials set the session and redirect to the dashboard; otherwise
flash a generic notice and re-render the form, session untouched. -/
def loginR (sess : Option String) (m : HttpMethod)
    (username password adminU adminP : String) : LoginOut :=
  match m with
  | .get => ⟨sess, .render "login.html", []⟩
  | .post =>
    if username == adminU && password == adminP then
      ⟨some username, .redirect "dashboard", []⟩
    else ⟨sess, .render "login.html", [("Invalid username or password", "error")]⟩

/-- Observable events of the `/contact` POST handler, in order. -/
inductive Ev where
  | dbCommit
  | mailSent
  | mailFailedCaughtLogged
deriving DecidableEq

/-- The fields of the contact form. -/
structure ContactForm where
  name : String
  email : String
  phone : String
  msg : String
deriving DecidableEq

/-- Outcome of `/contact`: contacts table, event trace, response, flashes. -/
structure ContactOut where
  contacts : List ContactMsg
  trace : List Ev
  resp : Resp
  flashes : List Flash
deriving DecidableEq

/-- The `Contact` row built from a submission: stripped fields, now. -/
def contactEntryOf (form : ContactForm) (now : Nat) : ContactMsg :=
  ⟨stripStr form.name, stripStr form.email, stripStr form.phone, stripStr form.msg, now⟩

/-- The `/contact` route from `app.py`: on POST add and commit the row,
then, if mail credentials are configured, attempt the mail send inside a
try/except that logs a failure; always flash success and redirect. -/
def contactR (m : HttpMethod) (form : ContactForm) (contacts : List ContactMsg)
    (gmailUser gmailPass : String) (mailFails : Bool) (now : Nat) : ContactOut :=
  match m with
  | .get => ⟨contacts, [], .render "contact.html", []⟩
  | .post =>
    { contacts := contacts ++ [contactEntryOf form now]
      trace := Ev.dbCommit ::
        (if gmailUser ≠ "" ∧ gmailPass ≠ "" then
          [if mailFails then Ev.mailFailedCaughtLogged else Ev.mailSent]
        else [])
      resp := .redirect "contact"
      flashes := [("Thanks! Your message has been sent.", "success")] }

/-- `os.getenv("ADMIN_USERNAME", "")` from `app.py`. -/
def adminUsernameOf (env : String → Option String) : String :=
  (env "ADMIN_USERNAME").getD ""

/-- `os.getenv("ADMIN_PASSWORD", "")` from `app.py`. -/
def adminPasswordOf (env : String → Option String) : String :=
  (env "ADMIN_PASSWORD").getD ""

/-- Pointwise-equal predicates give equal `anySuffix` results. -/
lemma anySuffix_congr (f g : List Char → Bool) (h : ∀ t, f t = g t) :
    ∀ s, anySuffix f s = anySuffix g s
  | [] => by simp [anySuffix, h]
  | c :: t => by simp [anySuffix, h, anySuffix_congr f g h t]

/-- The empty-pattern test holds of some suffix of every string. -/
lemma anySuffix_isEmpty : ∀ s, anySuffix (fun x : List Char => x.isEmpty) s = true
  | [] => by simp [anySuffix]
  | c :: t => by simp [anySuffix, anySuffix_isEmpty t]

/-- A wildcard-free pattern followed by `%` matches exactly the strings
it literally heads. -/
lemma likeM_lit (q : List Char) (hw : noWild q = true) :
    ∀ s, likeM (q ++ ['%']) s = startsW q s := by
  induction q with
  | nil =>
    intro s
    show likeM ['%'] s = startsW [] s
    simp [likeM, startsW, anySuffix_isEmpty s]
  | cons a q ih =>
    have hw' : ¬a = '%' ∧ ¬a = '_' ∧ noWild q = true := by
      simpa [noWild, List.all_cons, and_assoc] using hw
    intro s
    cases s with
    | nil => simp [likeM, startsW, hw'.1, hw'.2.1]
    | cons c t =>
      simp [likeM, startsW, hw'.1, hw'.2.1, ih hw'.2.2 t]

/-- For a wildcard-free query `q`, the LIKE pattern `%q%` matches
exactly the strings containing `q` literally. -/
lemma likeM_pattern_substr (q : List Char) (hw : noWild q = true) (s : List Char) :
    likeM ('%' :: (q ++ ['%'])) s = substrOcc q s := by
  show likeM ('%' :: (q ++ ['%'])) s = anySuffix (startsW q) s
  have h1 : likeM ('%' :: (q ++ ['%'])) s = anySuffix (likeM (q ++ ['%'])) s := by
    simp [likeM]
  rw [h1]
  exact anySuffix_congr _ _ (likeM_lit q hw) s

/-- `find?` on a split list whose left part has no key hit returns the
splitting row. -/
lemma find_split (l1 : List Post) (p : Post) (l2 : List Post) (n : Nat)
    (hp : p.sr_no = n) (h : ∀ q ∈ l1, q.sr_no ≠ n) :
    (l1 ++ p :: l2).find? (fun q => q.sr_no == n) = some p := by
  induction l1 with
  | nil => simp [List.find?_cons, hp]
  | cons a t ih =>
    have ha : ¬a.sr_no = n := h a (by simp)
    simp only [List.cons_append]
    rw [List.find?_cons_of_neg _ (by simp [ha])]
    exact ih (fun q hq => h q (by simp [hq]))

/-- `updateFirst` on a split list whose left part has no key hit
rewrites the splitting row and nothing else. -/
lemma updateFirst_split (g : Post → Post) (l1 : List Post) (p : Post) (l2 : List Post)
    (n : Nat) (hp : p.sr_no = n) (h : ∀ q ∈ l1, q.sr_no ≠ n) :
    updateFirst n g (l1 ++ p :: l2) = l1 ++ g p :: l2 := by
  induction l1 with
  | nil => simp [updateFirst, hp]
  | cons a t ih =>
    have ha : ¬a.sr_no = n := h a (by simp)
    simp only [List.cons_append, updateFirst, List.append_eq]
    rw [if_neg (by simp [ha])]
    rw [ih (fun q hq => h q (by simp [hq]))]

/-- `removeFirst` on a split list whose left part has no key hit drops
the splitting row and nothing else. -/
lemma removeFirst_split (l1 : List Post) (p : Post) (l2 : List Post)
    (n : Nat) (hp : p.sr_no = n) (h : ∀ q ∈ l1, q.sr_no ≠ n) :
    removeFirst n (l1 ++ p :: l2) = l1 ++ l2 := by
  induction l1 with
  | nil => simp [removeFirst, hp]
  | cons a t ih =>
    have ha : ¬a.sr_no = n := h a (by simp)
    simp only [List.cons_append, removeFirst, List.append_eq]
    rw [if_neg (by simp [ha])]
    rw [ih (fun q hq => h q (by simp [hq]))]

/-- C1: every admin-only route (dashboard, create/edit, delete, upload),
for every HTTP method it accepts, when the session identity is absent or
not equal to the configured admin username, performs no read or write of
posts (table and upload directory unchanged) and returns a redirect to
the login route. -/
theorem admin_routes_guarded (sess : Option String) (adminU : String)
    (posts : List Post) (uploads : List String) (m : HttpMethod) (sr_no : String)
    (form : EditForm) (freshId now delId : Nat) (file : Option String)
    (sanitize : String → String)
    (h : sess = none ∨ sess ≠ some adminU) :
    dashboardR sess adminU posts uploads = ⟨Resp.redirect "login", posts, uploads, []⟩
    ∧ editR sess adminU m sr_no form freshId now posts uploads
        = ⟨Resp.redirect "login", posts, uploads, []⟩
    ∧ deleteR sess adminU delId posts uploads = ⟨Resp.redirect "login", posts, uploads, []⟩
    ∧ uploadR sess adminU m file sanitize posts uploads
        = ⟨Resp.redirect "login", posts, uploads, []⟩ := by
  have hg : is_admin_logged_in sess adminU = false := by
    rcases h with h | h
    · subst h; rfl
    · simp [is_admin_logged_in]
      exact h
  simp [dashboardR, editR, deleteR, uploadR, hg]

/-- C1 witness: an absent session identity is turned away from all four
admin routes. -/
theorem admin_routes_guarded_witness :
    dashboardR none "admin" [] [] = ⟨Resp.redirect "login", [], [], []⟩
    ∧ editR none "admin" HttpMethod.post "0" ⟨"t", "s", "c", "g", "i"⟩ 1 0 [] []
        = ⟨Resp.redirect "login", [], [], []⟩
    ∧ deleteR none "admin" 1 [] [] = ⟨Resp.redirect "login", [], [], []⟩
    ∧ uploadR none "admin" HttpMethod.post (some "x.png") (fun s => s) [] []
        = ⟨Resp.redirect "login", [], [], []⟩ :=
  admin_routes_guarded none "admin" [] [] HttpMethod.post "0" ⟨"t", "s", "c", "g", "i"⟩
    1 0 1 (some "x.png") (fun s => s) (Or.inl rfl)

/-- C4: login on POST establishes the session identity (set to the
submitted username) and redirects to the dashboard iff the submitted
pair matches the configured admin credentials exactly; on any other
combination the session is unchanged and the form is re-rendered with a
generic invalid-credentials flash. -/
theorem login_exact_match (sess : Option String) (u p adminU adminP : String) :
    (((loginR sess HttpMethod.post u p adminU adminP).sess = some u
      ∧ (loginR sess HttpMethod.post u p adminU adminP).resp = Resp.redirect "dashboard")
     ↔ (u = adminU ∧ p = adminP))
    ∧ (¬(u = adminU ∧ p = adminP) →
        (loginR sess HttpMethod.post u p adminU adminP).sess = sess
        ∧ (loginR sess HttpMethod.post u p adminU adminP).resp = Resp.render "login.html"
        ∧ (loginR sess HttpMethod.post u p adminU adminP).flashes
            = [("Invalid username or password", "error")]) := by
  by_cases hc : u = adminU ∧ p = adminP
  · obtain ⟨h1, h2⟩ := hc
    subst h1; subst h2
    simp [loginR]
  · have hb : (u == adminU && p == adminP) = false := by
      rcases not_and_or.mp hc with h | h <;> simp [h]
    simp [loginR, hb]
    exact not_and.mp hc

/-- C4 witness: the exactly-matching pair logs in and redirects. -/
theorem login_exact_match_witness :
    (loginR none HttpMethod.post "a" "b" "a" "b").sess = some "a"
    ∧ (loginR none HttpMethod.post "a" "b" "a" "b").resp = Resp.redirect "dashboard" :=
  (login_exact_match none "a" "b" "a" "b").1.mpr ⟨rfl, rfl⟩

/-- C10: a failed login leaves the session unchanged; in particular an
already-established admin identity persists and the gate still accepts
it afterwards. -/
theorem failed_login_frame (sess : Option String) (u p adminU adminP : String)
    (h : ¬(u = adminU ∧ p = adminP)) :
    (loginR sess HttpMethod.post u p adminU adminP).sess = sess
    ∧ is_admin_logged_in
        (loginR (some adminU) HttpMethod.post u p adminU adminP).sess adminU = true := by
  have hb : (u == adminU && p == adminP) = false := by
    rcases not_and_or.mp h with h | h <;> simp [h]
  constructor
  · simp [loginR, hb]
  · simp [loginR, hb, is_admin_logged_in]

/-- C10 witness: a wrong-password attempt with a live admin session. -/
theorem failed_login_frame_witness :
    (loginR (some "x") HttpMethod.post "a" "b" "a" "c").sess = some "x"
    ∧ is_admin_logged_in
        (loginR (some "a") HttpMethod.post "a" "b" "a" "c").sess "a" = true :=
  failed_login_frame (some "x") "a" "b" "a" "c" (by decide)

/-- C9: with ADMIN_USERNAME and ADMIN_PASSWORD absent from the
environment the configured credentials default to the empty string, an
empty-empty login succeeds and sets the session identity to the empty
string, the gate then returns true, and admin routes serve their
content. -/
theorem empty_env_defaults_grant_admin (env : String → Option String)
    (posts : List Post) (uploads : List String)
    (h1 : env "ADMIN_USERNAME" = none) (h2 : env "ADMIN_PASSWORD" = none) :
    adminUsernameOf env = "" ∧ adminPasswordOf env = ""
    ∧ loginR none HttpMethod.post "" "" (adminUsernameOf env) (adminPasswordOf env)
        = ⟨some "", Resp.redirect "dashboard", []⟩
    ∧ is_admin_logged_in (some "") (adminUsernameOf env) = true
    ∧ dashboardR (some "") (adminUsernameOf env) posts uploads
        = ⟨Resp.render "dashboard.html", posts, uploads, []⟩ := by
  have e1 : adminUsernameOf env = "" := by simp [adminUsernameOf, h1]
  have e2 : adminPasswordOf env = "" := by simp [adminPasswordOf, h2]
  rw [e1, e2]
  refine ⟨rfl, rfl, by decide, by decide, ?_⟩
  simp [dashboardR, is_admin_logged_in]

/-- C9 witness: the wholly-empty environment. -/
theorem empty_env_defaults_grant_admin_witness :
    adminUsernameOf (fun _ => none) = "" ∧ adminPasswordOf (fun _ => none) = ""
    ∧ loginR none HttpMethod.post "" "" (adminUsernameOf (fun _ => none))
        (adminPasswordOf (fun _ => none)) = ⟨some "", Resp.redirect "dashboard", []⟩
    ∧ is_admin_logged_in (some "") (adminUsernameOf (fun _ => none)) = true
    ∧ dashboardR (some "") (adminUsernameOf (fun _ => none)) [] []
        = ⟨Resp.render "dashboard.html", [], [], []⟩ :=
  empty_env_defaults_grant_admin (fun _ => none) [] [] rfl rfl

/-- C5: every contact POST persists exactly one row, committed before
any mail dispatch is attempted; a mail failure is caught and logged, the
row is not rolled back, and the request still flashes success and
redirects; the persisted rows do not depend on the mail outcome. -/
theorem contact_persists_despite_mail (form : ContactForm) (contacts : List ContactMsg)
    (gU gP : String) (mailFails : Bool) (now : Nat) :
    (contactR HttpMethod.post form contacts gU gP mailFails now).contacts
        = contacts ++ [contactEntryOf form now]
    ∧ (contactR HttpMethod.post form contacts gU gP mailFails now).trace.head?
        = some Ev.dbCommit
    ∧ (contactR HttpMethod.post form contacts gU gP mailFails now).resp
        = Resp.redirect "contact"
    ∧ (contactR HttpMethod.post form contacts gU gP mailFails now).flashes
        = [("Thanks! Your message has been sent.", "success")]
    ∧ (gU ≠ "" → gP ≠ "" → mailFails = true →
        (contactR HttpMethod.post form contacts gU gP mailFails now).trace
          = [Ev.dbCommit, Ev.mailFailedCaughtLogged])
    ∧ (contactR HttpMethod.post form contacts gU gP mailFails now).contacts
        = (contactR HttpMethod.post form contacts gU gP (!mailFails) now).contacts := by
  refine ⟨rfl, rfl, rfl, rfl, ?_, rfl⟩
  intro hU hP hF
  simp [contactR, hU, hP, hF]

/-- C5 witness: a failing mail transport with configured credentials. -/
theorem contact_persists_despite_mail_witness :
    (contactR HttpMethod.post ⟨"n", "e", "p", "m"⟩ [] "u" "w" true 0).trace
      = [Ev.dbCommit, Ev.mailFailedCaughtLogged] :=
  (contact_persists_despite_mail ⟨"n", "e", "p", "m"⟩ [] "u" "w" true 0).2.2.2.2.1
    (by decide) (by decide) rfl

/-- C6: an upload POST by an authenticated admin is rejected with a
flashed notice and no directory write when no file is present, the
filename is empty, or the extension check fails; otherwise the sanitized
filename is written to the upload directory and the request redirects to
the dashboard. -/
theorem upload_allowlist (sess : Option String) (adminU : String) (file : Option String)
    (sanitize : String → String) (posts : List Post) (uploads : List String)
    (hauth : is_admin_logged_in sess adminU = true) :
    (file = none ∨ file = some "" →
      uploadR sess adminU HttpMethod.post file sanitize posts uploads
        = ⟨Resp.redirect "upload", posts, uploads, [("No file selected.", "error")]⟩)
    ∧ (∀ f, file = some f → f ≠ "" → allowed_file f = false →
        uploadR sess adminU HttpMethod.post file sanitize posts uploads
          = ⟨Resp.redirect "upload", posts, uploads, [("Invalid file type.", "error")]⟩)
    ∧ (∀ f, file = some f → f ≠ "" → allowed_file f = true →
        uploadR sess adminU HttpMethod.post file sanitize posts uploads
          = ⟨Resp.redirect "dashboard", posts, uploads ++ [sanitize f],
             [("Uploaded successfully.", "success")]⟩) := by
  refine ⟨?_, ?_, ?_⟩
  · rintro (h | h) <;> subst h <;> simp [uploadR, hauth]
  · rintro f rfl hne hbad
    simp [uploadR, hauth, hne, hbad]
  · rintro f rfl hne hok
    simp [uploadR, hauth, hne, hok]

/-- C6 witness: a disallowed `x.exe` is rejected, an allowed `x.png` is
saved under the sanitized name, a missing file is rejected. -/
theorem upload_allowlist_witness :
    uploadR (some "a") "a" HttpMethod.post none (fun s => s) [] []
      = ⟨Resp.redirect "upload", [], [], [("No file selected.", "error")]⟩
    ∧ uploadR (some "a") "a" HttpMethod.post (some "x.exe") (fun s => s) [] []
      = ⟨Resp.redirect "upload", [], [], [("Invalid file type.", "error")]⟩
    ∧ uploadR (some "a") "a" HttpMethod.post (some "x.png") (fun s => s) [] []
      = ⟨Resp.redirect "dashboard", [], ["x.png"], [("Uploaded successfully.", "success")]⟩ :=
  ⟨(upload_allowlist (some "a") "a" none (fun s => s) [] [] (by decide)).1 (Or.inl rfl),
   (upload_allowlist (some "a") "a" (some "x.exe") (fun s => s) [] [] (by decide)).2.1
     "x.exe" rfl (by decide) (by decide),
   (upload_allowlist (some "a") "a" (some "x.png") (fun s => s) [] [] (by decide)).2.2
     "x.png" rfl (by decide) (by decide)⟩

/-- C7: an authenticated edit POST with the sentinel identifier "0"
appends a fresh row built from the stripped form fields; with an
identifier naming an existing row it overwrites exactly that row's
fields and leaves every other row unchanged. -/
theorem edit_create_or_update (sess : Option String) (adminU : String) (form : EditForm)
    (freshId now : Nat) (posts l1 l2 : List Post) (p : Post) (sr_no : String) (n : Nat)
    (uploads : List String)
    (hauth : is_admin_logged_in sess adminU = true) :
    editR sess adminU HttpMethod.post "0" form freshId now posts uploads
      = ⟨Resp.redirect "dashboard", posts ++ [newPostOf form freshId now], uploads,
         [("Post saved successfully!", "success")]⟩
    ∧ (sr_no ≠ "0" → parseNat sr_no = some n → posts = l1 ++ p :: l2 → p.sr_no = n →
        (∀ q ∈ l1, q.sr_no ≠ n) →
        editR sess adminU HttpMethod.post sr_no form freshId now posts uploads
          = ⟨Resp.redirect "dashboard", l1 ++ updOf form p :: l2, uploads,
             [("Post saved successfully!", "success")]⟩) := by
  constructor
  · simp [editR, hauth]
  · intro h0 hn hsplit hp hl1
    subst hsplit
    have hfind := find_split l1 p l2 n hp hl1
    have hupd := updateFirst_split (updOf form) l1 p l2 n hp hl1
    simp [editR, hauth, h0, hn, hfind, hupd]

/-- C7 witness: creating with sentinel "0" appends; editing row 1 of a
two-row table rewrites only it. -/
theorem edit_create_or_update_witness :
    editR (some "a") "a" HttpMethod.post "0" ⟨" T ", "s", "c", "g", "i"⟩ 7 3 [] []
      = ⟨Resp.redirect "dashboard", [newPostOf ⟨" T ", "s", "c", "g", "i"⟩ 7 3], [],
         [("Post saved successfully!", "success")]⟩
    ∧ editR (some "a") "a" HttpMethod.post "1" ⟨" T ", "s", "c", "g", "i"⟩ 7 3
        [⟨2, "t2", "s2", "c2", "g2", 9, ""⟩, ⟨1, "t1", "s1", "c1", "g1", 5, ""⟩] []
      = ⟨Resp.redirect "dashboard",
         [⟨2, "t2", "s2", "c2", "g2", 9, ""⟩,
          updOf ⟨" T ", "s", "c", "g", "i"⟩ ⟨1, "t1", "s1", "c1", "g1", 5, ""⟩], [],
         [("Post saved successfully!", "success")]⟩ :=
  ⟨(edit_create_or_update (some "a") "a" ⟨" T ", "s", "c", "g", "i"⟩ 7 3 [] [] []
      ⟨1, "t1", "s1", "c1", "g1", 5, ""⟩ "1" 1 [] (by decide)).1,
   (edit_create_or_update (some "a") "a" ⟨" T ", "s", "c", "g", "i"⟩ 7 3
      [⟨2, "t2", "s2", "c2", "g2", 9, ""⟩, ⟨1, "t1", "s1", "c1", "g1", 5, ""⟩]
      [⟨2, "t2", "s2", "c2", "g2", 9, ""⟩] [] ⟨1, "t1", "s1", "c1", "g1", 5, ""⟩ "1" 1 []
      (by decide)).2 (by decide) (by decide) rfl rfl (by decide)⟩

/-- C8: an authenticated delete of a missing identifier yields NotFound
with the table unchanged; deleting an existing identifier removes
exactly that row, leaves every other row unchanged, and redirects to the
dashboard with a confirmation flash. -/
theorem delete_exact_row (sess : Option String) (adminU : String) (delId : Nat)
    (posts l1 l2 : List Post) (p : Post) (uploads : List String)
    (hauth : is_admin_logged_in sess adminU = true) :
    (posts.find? (fun q => q.sr_no == delId) = none →
      deleteR sess adminU delId posts uploads = ⟨Resp.notFound, posts, uploads, []⟩)
    ∧ (posts = l1 ++ p :: l2 → p.sr_no = delId → (∀ q ∈ l1, q.sr_no ≠ delId) →
        deleteR sess adminU delId posts uploads
          = ⟨Resp.redirect "dashboard", l1 ++ l2, uploads,
             [("Post deleted successfully!", "info")]⟩) := by
  constructor
  · intro hnone
    simp [deleteR, hauth, hnone]
  · intro hsplit hp hl1
    subst hsplit
    have hfind := find_split l1 p l2 delId hp hl1
    have hrem := removeFirst_split l1 p l2 delId hp hl1
    simp [deleteR, hauth, hfind, hrem]

/-- C8 witness: deleting id 3 from a table without it is NotFound;
deleting id 1 from a two-row table removes only that row. -/
theorem delete_exact_row_witness :
    deleteR (some "a") "a" 3 [⟨1, "t1", "s1", "c1", "g1", 5, ""⟩] []
      = ⟨Resp.notFound, [⟨1, "t1", "s1", "c1", "g1", 5, ""⟩], [], []⟩
    ∧ deleteR (some "a") "a" 1
        [⟨2, "t2", "s2", "c2", "g2", 9, ""⟩, ⟨1, "t1", "s1", "c1", "g1", 5, ""⟩] []
      = ⟨Resp.redirect "dashboard", [⟨2, "t2", "s2", "c2", "g2", 9, ""⟩], [],
         [("Post deleted successfully!", "info")]⟩ :=
  ⟨(delete_exact_row (some "a") "a" 3 [⟨1, "t1", "s1", "c1", "g1", 5, ""⟩] [] []
      ⟨1, "t1", "s1", "c1", "g1", 5, ""⟩ [] (by decide)).1 (by decide),
   (delete_exact_row (some "a") "a" 1
      [⟨2, "t2", "s2", "c2", "g2", 9, ""⟩, ⟨1, "t1", "s1", "c1", "g1", 5, ""⟩]
      [⟨2, "t2", "s2", "c2", "g2", 9, ""⟩] [] ⟨1, "t1", "s1", "c1", "g1", 5, ""⟩ []
      (by decide)).2 rfl rfl (by decide)⟩

/-- `max 1 ((T + P - 1) / P)` is the number of pages: it covers all `T`
rows and (unless the table is empty) its predecessor does not. -/
lemma ceil_cover (T P : Nat) (hP : 1 ≤ P) :
    T ≤ P * max 1 ((T + P - 1) / P)
    ∧ (T = 0 ∨ P * (max 1 ((T + P - 1) / P) - 1) < T) := by
  have hq1 := Nat.div_add_mod (T + P - 1) P
  have hq2 := Nat.mod_lt (T + P - 1) (show 0 < P by omega)
  generalize hrdef : (T + P - 1) % P = r at hq1 hq2
  rcases Nat.eq_zero_or_pos ((T + P - 1) / P) with h0 | hpos
  · rw [h0] at hq1 ⊢
    rw [show max 1 0 = 1 from rfl]
    constructor
    · omega
    · left; omega
  · obtain ⟨k, hk⟩ : ∃ k, (T + P - 1) / P = k + 1 :=
      ⟨(T + P - 1) / P - 1, (Nat.succ_pred_eq_of_pos hpos).symm⟩
    rw [hk] at hq1 ⊢
    rw [Nat.mul_succ] at hq1
    rw [max_eq_right (by omega : (1 : Nat) ≤ k + 1)]
    simp only [Nat.add_sub_cancel]
    refine ⟨?_, Or.inr ?_⟩
    · rw [Nat.mul_succ]
      generalize P * k = m at hq1 ⊢
      omega
    · generalize P * k = m at hq1 ⊢
      omega

/-- C2: for page size P at least 1 the index computes
`last_page = max(1, ceil(T/P))` (witnessed by the covering bounds),
serves page `min(max(1, N), last_page)` which lies in `[1, last_page]`,
and the served page is the slice of the date-descending posts at offset
`(page - 1) * P`, of length at most P. -/
theorem index_pagination (db : List Post) (P : Nat) (N : Int) (hP : 1 ≤ P) :
    (indexRoute db N P).lastPage = max 1 ((db.length + P - 1) / P)
    ∧ db.length ≤ P * (indexRoute db N P).lastPage
    ∧ (db.length = 0 ∨ P * ((indexRoute db N P).lastPage - 1) < db.length)
    ∧ (indexRoute db N P).page = min (max 1 N) ((indexRoute db N P).lastPage : Int)
    ∧ 1 ≤ (indexRoute db N P).page
    ∧ (indexRoute db N P).page ≤ ((indexRoute db N P).lastPage : Int)
    ∧ (indexRoute db N P).posts
        = ((sortDesc db).drop (((indexRoute db N P).page - 1).toNat * P)).take P
    ∧ (indexRoute db N P).posts.length ≤ P := by
  have hcov := ceil_cover db.length P hP
  have hcast : (1 : Int) ≤ ((max 1 ((db.length + P - 1) / P) : Nat) : Int) := by
    exact_mod_cast le_max_left 1 ((db.length + P - 1) / P)
  refine ⟨rfl, hcov.1, hcov.2, rfl, ?_, ?_, rfl, ?_⟩
  · show (1 : Int) ≤ min (max 1 N) ((max 1 ((db.length + P - 1) / P) : Nat) : Int)
    exact le_min (le_max_left 1 N) hcast
  · show min (max 1 N) ((max 1 ((db.length + P - 1) / P) : Nat) : Int)
        ≤ ((max 1 ((db.length + P - 1) / P) : Nat) : Int)
    exact min_le_right _ _
  · show (((sortDesc db).drop
        (((indexRoute db N P).page - 1).toNat * P)).take P).length ≤ P
    simp only [List.length_take]
    exact Nat.min_le_left _ _

/-- C2 witness: two posts, page size 5, requested page 0. -/
theorem index_pagination_witness :
    (indexRoute [⟨1, "t", "s", "c", "g", 5, ""⟩, ⟨2, "u", "v", "w", "x", 9, ""⟩] 0 5).page
      = min (max 1 0)
        (((indexRoute [⟨1, "t", "s", "c", "g", 5, ""⟩, ⟨2, "u", "v", "w", "x", 9, ""⟩]
            0 5).lastPage : Int))
    ∧ (indexRoute [⟨1, "t", "s", "c", "g", 5, ""⟩, ⟨2, "u", "v", "w", "x", 9, ""⟩]
        0 5).posts.length ≤ 5 :=
  ⟨(index_pagination [⟨1, "t", "s", "c", "g", 5, ""⟩, ⟨2, "u", "v", "w", "x", 9, ""⟩]
      5 0 (by decide)).2.2.2.1,
   (index_pagination [⟨1, "t", "s", "c", "g", 5, ""⟩, ⟨2, "u", "v", "w", "x", 9, ""⟩]
      5 0 (by decide)).2.2.2.2.2.2.2⟩

/-- C3 (amended): an empty stripped query returns no results without
querying the store; a non-empty query returns exactly the posts matched
by the case-insensitive LIKE pattern `%q%` on title, tagline or content,
ordered by descending creation time; and whenever the lower-cased query
contains no LIKE wildcard (`%` or `_`) that matching coincides with
case-insensitive substring matching. -/
theorem search_like_semantics (posts : List Post) (qRaw : String) :
    (stripStr qRaw = "" → searchR posts qRaw = ⟨[], false⟩)
    ∧ (stripStr qRaw ≠ "" →
        searchR posts qRaw
          = ⟨sortDesc (posts.filter (postMatches (stripStr qRaw))), true⟩)
    ∧ (noWild (lowerL (stripStr qRaw).data) = true → ∀ f : String,
        ilikeB (stripStr qRaw) f = substrCI (stripStr qRaw) f) := by
  refine ⟨?_, ?_, ?_⟩
  · intro h
    simp [searchR, h]
  · intro h
    simp [searchR, h]
  · intro hw f
    show likeM ('%' :: (lowerL (stripStr qRaw).data ++ ['%'])) (lowerL f.data)
        = substrOcc (lowerL (stripStr qRaw).data) (lowerL f.data)
    exact likeM_pattern_substr _ hw _

/-- C3 witness: the wildcard-free query "He" matches "hello" the same
way under the code's ILIKE and under the substring reading. -/
theorem search_like_semantics_witness :
    ilikeB (stripStr "He") "hello" = substrCI (stripStr "He") "hello" :=
  (search_like_semantics [] "He").2.2 (by decide) "hello"

/-- C3 counterexample: the code returns the post titled "a" for the
query "_" although "_" is not a case-insensitive substring of the title,
the tagline or the content, because ILIKE treats "_" as a one-character
wildcard. -/
theorem search_substring_claim_false :
    (searchR [⟨1, "a", "a", "", "", 0, ""⟩] "_").results
      = [⟨1, "a", "a", "", "", 0, ""⟩]
    ∧ substrCI "_" "a" = false ∧ substrCI "_" "" = false := by
  decide

end Blog
